import Mathlib

/-!
Verification of the Constant-Volatility-Pipeline core (analytics.py,
fetcher.py, strategy.py) against its natural-language specification.

Modelling conventions:

* Dates are integer day numbers counted from 1970-01-01 (a Thursday,
  Python weekday 3).  `civilFromDays` / `daysFromCivil` are the standard
  proleptic-Gregorian conversions (the calendar Python's `datetime.date`
  implements), so `date.weekday()`, `date.year` and the "YYYY-MM-DD"
  string of a Python date correspond to `weekday z`,
  `(civilFromDays z).1` and the full triple `civilFromDays z`.  Holiday
  strings from `fetcher.py` are embedded as (year, month, day) triples.
  Integer division below is `Int`'s `/` (Euclidean; identical to floor
  division for the positive divisors used here, matching Python).

* Python floats are modelled as rationals.  The mathematical library
  functions the source calls (`math.exp/log/sqrt`, `scipy.stats.norm.cdf`,
  `norm.pdf`) are external collaborators and are passed in as a `MathLib`
  record of opaque rational functions; theorems that depend on an
  analytic property of those functions (e.g. symmetry of the standard
  normal CDF) take that property as a hypothesis.

* Python lists / pandas frames of quotes are Lean lists; `None` /
  `raise` become `Option` / `Except`.
-/

/-- Day number (days since 1970-01-01) to (year, month, day) in the
proleptic Gregorian calendar. -/
def civilFromDays (z : ℤ) : ℤ × ℤ × ℤ :=
  let days := z + 719468
  let era := days / 146097
  let doe := days - era * 146097
  let yoe := (doe - doe / 1460 + doe / 36524 - doe / 146096) / 365
  let y := yoe + era * 400
  let doy := doe - (365 * yoe + yoe / 4 - yoe / 100)
  let mp := (5 * doy + 2) / 153
  let d := doy - (153 * mp + 2) / 5 + 1
  let m := if mp < 10 then mp + 3 else mp - 9
  (if m ≤ 2 then y + 1 else y, m, d)

/-- (year, month, day) to day number since 1970-01-01 in the proleptic
Gregorian calendar. -/
def daysFromCivil (y m d : ℤ) : ℤ :=
  let y2 := if m ≤ 2 then y - 1 else y
  let era := y2 / 400
  let yoe := y2 - era * 400
  let mp := if m ≤ 2 then m + 9 else m - 3
  let doy := (153 * mp + 2) / 5 + d - 1
  let doe := yoe * 365 + yoe / 4 - yoe / 100 + doy
  era * 146097 + doe - 719468

/-- Python's `date.weekday()`: Monday = 0, ..., Sunday = 6. -/
def weekday (z : ℤ) : ℤ := (z + 3) % 7

/-- fetcher.py `NSE_EXCEPTIONS`: dates that are holidays by the table or
weekend rule but on which the market is open. -/
def NSE_EXCEPTIONS : List (ℤ × ℤ × ℤ) := [(2026, 2, 1)]

/-- fetcher.py `NSE_HOLIDAYS_BY_YEAR[2024]`. -/
def nseHolidays2024 : List (ℤ × ℤ × ℤ) :=
  [(2024,1,26), (2024,3,8), (2024,3,25), (2024,3,29), (2024,4,11), (2024,4,17),
   (2024,4,21), (2024,5,23), (2024,6,17), (2024,7,17), (2024,8,15), (2024,8,26),
   (2024,9,16), (2024,10,2), (2024,10,12), (2024,10,31), (2024,11,1), (2024,11,15),
   (2024,12,25)]

/-- fetcher.py `NSE_HOLIDAYS_BY_YEAR[2025]` (the source set literal lists
2025-10-02 and 2025-10-20 twice; duplicates are kept, membership is
unaffected). -/
def nseHolidays2025 : List (ℤ × ℤ × ℤ) :=
  [(2025,1,26), (2025,2,28), (2025,3,14), (2025,4,18), (2025,3,30), (2025,4,4),
   (2025,4,14), (2025,4,21), (2025,5,23), (2025,6,7), (2025,7,7), (2025,8,15),
   (2025,8,16), (2025,9,16), (2025,10,2), (2025,10,2), (2025,10,20), (2025,10,20),
   (2025,11,1), (2025,11,5), (2025,11,15), (2025,12,25)]

/-- fetcher.py `NSE_HOLIDAYS_BY_YEAR[2026]`. -/
def nseHolidays2026 : List (ℤ × ℤ × ℤ) :=
  [(2026,1,26), (2026,3,6), (2026,3,25), (2026,4,10), (2026,4,14), (2026,4,21),
   (2026,5,1), (2026,8,15), (2026,10,2), (2026,10,24), (2026,11,12), (2026,12,25)]

/-- fetcher.py `NSE_HOLIDAYS_BY_YEAR[2027]`. -/
def nseHolidays2027 : List (ℤ × ℤ × ℤ) :=
  [(2027,1,26), (2027,2,19), (2027,3,14), (2027,4,2), (2027,5,1), (2027,5,14),
   (2027,8,15), (2027,10,2), (2027,10,15), (2027,11,1), (2027,11,15), (2027,12,25)]

/-- All dates appearing in `NSE_HOLIDAYS_BY_YEAR`. -/
def allNseHolidayDates : List (ℤ × ℤ × ℤ) :=
  nseHolidays2024 ++ nseHolidays2025 ++ nseHolidays2026 ++ nseHolidays2027

/-- fetcher.py `get_nse_holidays`: the holiday set for a year, empty for
years outside the table (`dict.get(year, set())`). -/
def get_nse_holidays (year : ℤ) : List (ℤ × ℤ × ℤ) :=
  if year = 2024 then nseHolidays2024
  else if year = 2025 then nseHolidays2025
  else if year = 2026 then nseHolidays2026
  else if year = 2027 then nseHolidays2027
  else []

/-- The day numbers of every date in `NSE_HOLIDAYS_BY_YEAR`
(see `Hdays_eq_table`). -/
def Hdays : List ℤ :=
  [19748, 19790, 19807, 19811, 19824, 19830, 19834, 19866, 19891, 19921, 19950,
   19961, 19982, 19998, 20008, 20027, 20028, 20042, 20082, 20114, 20147, 20161,
   20196, 20177, 20182, 20192, 20199, 20231, 20246, 20276, 20315, 20316, 20347,
   20363, 20363, 20381, 20381, 20393, 20397, 20407, 20447, 20479, 20518, 20537,
   20553, 20557, 20564, 20574, 20680, 20728, 20750, 20769, 20812, 20844, 20868,
   20891, 20910, 20939, 20952, 21045, 21093, 21106, 21123, 21137, 21177]

/-- fetcher.py `is_market_holiday`: true when the date is a non-trading
day (exception override first, then weekend, then holiday table). -/
def is_market_holiday (z : ℤ) : Bool :=
  if civilFromDays z ∈ NSE_EXCEPTIONS then false
  else if 5 ≤ weekday z then true
  else decide (civilFromDays z ∈ get_nse_holidays (civilFromDays z).1)

/-- The body of the `while is_market_holiday` loop of
`get_previous_working_day`, with explicit fuel; `none` means the fuel ran
out before a working day was found. -/
def prevWorkingAux : ℕ → ℤ → Option ℤ
  | 0, _ => none
  | Nat.succ n, z => if is_market_holiday z then prevWorkingAux n (z - 1) else some z

/-- fetcher.py `get_previous_working_day`: step back one day at a time
until `is_market_holiday` is false.  The source loop is uncapped; fuel 5
is used here because the termination theorem shows five probes always
suffice for the program's static tables (the result is never `none`). -/
def get_previous_working_day (z : ℤ) : Option ℤ :=
  prevWorkingAux 5 (z - 1)

/-- analytics.py `TRADING_TIME`. -/
def TRADING_TIME : ℚ := 0.75

/-- analytics.py `NON_TRADING_TIME`. -/
def NON_TRADING_TIME : ℚ := 0.25

/-- The day classification used inside `compute_ttm`'s loop:
`is_weekend or is_holiday` (note: no `NSE_EXCEPTIONS` check). -/
def ttmIsNonTrading (z : ℤ) : Bool :=
  decide (5 ≤ weekday z) || decide (civilFromDays z ∈ get_nse_holidays (civilFromDays z).1)

/-- The `while d < expiry_date` accumulation loop of `compute_ttm`:
`n` remaining iterations starting at day `z`, adding `NON_TRADING_TIME`
for non-trading days and `1.0` for trading days. -/
def ttmDaysAux : ℕ → ℤ → ℚ
  | 0, _ => 0
  | Nat.succ n, z => (if ttmIsNonTrading z then NON_TRADING_TIME else 1) + ttmDaysAux n (z + 1)

/-- analytics.py `compute_ttm`: year fraction between valuation and
expiry; 0 when `valuation_date >= expiry_date`, otherwise the weighted
day count over the open interval plus `TRADING_TIME` for expiry day,
divided by 365. -/
def compute_ttm (valuation_date expiry_date : ℤ) : ℚ :=
  if valuation_date ≥ expiry_date then 0
  else (ttmDaysAux (expiry_date - (valuation_date + 1)).toNat (valuation_date + 1)
        + TRADING_TIME) / 365

/-- The mathematical library functions the source calls (`math.exp`,
`math.log`, `math.sqrt`, `scipy.stats.norm.cdf`, `norm.pdf` both in its
one-argument standard form and its (x, loc, scale) form).  They are
external collaborators of the core and are passed in opaquely. -/
structure MathLib where
  exp : ℚ → ℚ
  log : ℚ → ℚ
  sqrt : ℚ → ℚ
  normCdf : ℚ → ℚ
  normPdf : ℚ → ℚ
  normPdfLoc : ℚ → ℚ → ℚ → ℚ

/-- analytics.py `BlackScholes.price`: intrinsic value when
`T <= 1e-5`, otherwise the closed-form European price. -/
def BlackScholes.price (M : MathLib) (S K T r sigma : ℚ) (option_type : String) : ℚ :=
  if T ≤ 1e-5 then (if option_type = "CE" then max 0 (S - K) else max 0 (K - S))
  else
    let d1 := (M.log (S / K) + (r + 0.5 * sigma ^ 2) * T) / (sigma * M.sqrt T)
    let d2 := d1 - sigma * M.sqrt T
    if option_type = "CE" then S * M.normCdf d1 - K * M.exp (-(r * T)) * M.normCdf d2
    else K * M.exp (-(r * T)) * M.normCdf (-d2) - S * M.normCdf (-d1)

/-- analytics.py module-level `bs_price` (no expiry shortcut). -/
def bs_price (M : MathLib) (S K T r sigma : ℚ) (option_type : String) : ℚ :=
  let d1 := (M.log (S / K) + (r + 0.5 * sigma ^ 2) * T) / (sigma * M.sqrt T)
  let d2 := d1 - sigma * M.sqrt T
  if option_type = "CE" then S * M.normCdf d1 - K * M.exp (-(r * T)) * M.normCdf d2
  else K * M.exp (-(r * T)) * M.normCdf (-d2) - S * M.normCdf (-d1)

/-- analytics.py module-level `bs_vega`. -/
def bs_vega (M : MathLib) (S K T r sigma : ℚ) : ℚ :=
  let d1 := (M.log (S / K) + (r + 0.5 * sigma ^ 2) * T) / (sigma * M.sqrt T)
  S * M.normPdf d1 * M.sqrt T

/-- The `for _ in range(max_iter)` Newton-Raphson loop of `implied_vol`:
returns the current sigma on the near-zero-vega break, on convergence,
and on iteration exhaustion; otherwise performs the Newton update and
clamps into [0.01, 3.0]. -/
def ivLoop (M : MathLib) (market_price S K T r : ℚ) (option_type : String)
    (tol : ℚ) : ℕ → ℚ → ℚ
  | 0, sigma => sigma
  | Nat.succ n, sigma =>
      let price := bs_price M S K T r sigma option_type
      let vega := bs_vega M S K T r sigma
      if vega < 1e-8 then sigma
      else if |price - market_price| < tol then sigma
      else ivLoop M market_price S K T r option_type tol n
        (max 0.01 (min (sigma - (price - market_price) / vega) 3.0))

/-- analytics.py `implied_vol`: `None` for sub-tick prices
(`market_price < 0.5`), otherwise Newton-Raphson from the 0.2 initial
guess.  `tol` and `max_iter` default to 1e-6 and 1000 at the call sites. -/
def implied_vol (M : MathLib) (market_price S K T r : ℚ) (option_type : String)
    (tol : ℚ) (max_iter : ℕ) : Option ℚ :=
  if market_price < 0.5 then none
  else some (ivLoop M market_price S K T r option_type tol max_iter 0.2)

/-- strategy.py leg dict: strike, type ("CE"/"PE"), side ("BUY"/"SELL"),
qty. -/
structure Leg where
  strike : ℚ
  type : String
  side : String
  qty : ℚ
deriving DecidableEq

/-- One row of the weekly-options bhavcopy frame (the columns
`attach_premiums_from_bhavcopy` reads). -/
structure QuoteRow where
  StrkPric : ℚ
  OptnTp : String
  ClsPric : ℚ
  OpnIntrst : ℚ
deriving DecidableEq

/-- A leg dict after `{**leg, "premium": premium}`: the four original
fields plus the attached premium. -/
structure EnrichedLeg where
  strike : ℚ
  type : String
  side : String
  qty : ℚ
  premium : ℚ
deriving DecidableEq

/-- Forget the premium of an enriched leg. -/
def toLeg (e : EnrichedLeg) : Leg := ⟨e.strike, e.type, e.side, e.qty⟩

/-- The row filter
`options_df[(options_df["StrkPric"] == leg["strike"]) & (options_df["OptnTp"] == leg["type"])]`. -/
def legMatches (options_df : List QuoteRow) (leg : Leg) : List QuoteRow :=
  options_df.filter (fun row => row.StrkPric == leg.strike && row.OptnTp == leg.type)

/-- `{**leg, "premium": premium}`. -/
def mkEnriched (leg : Leg) (premium : ℚ) : EnrichedLeg :=
  ⟨leg.strike, leg.type, leg.side, leg.qty, premium⟩

/-- The `for leg in legs` loop of `attach_premiums_from_bhavcopy`,
returning the (enriched, skipped) pair it accumulates. -/
def attachAux (options_df : List QuoteRow) : List Leg → List EnrichedLeg × List Leg
  | [] => ([], [])
  | leg :: rest =>
      let r := attachAux options_df rest
      match legMatches options_df leg with
      | [] => (r.1, leg :: r.2)
      | row :: _ => (mkEnriched leg row.ClsPric :: r.1, r.2)

/-- Message of the `ValueError` raised when no leg resolves. -/
def noValidLegsMsg : String := "No valid option legs found. Cannot proceed."

/-- strategy.py `attach_premiums_from_bhavcopy`: per-leg quote matching;
raises (`Except.error`) exactly when the enriched list ends up empty. -/
def attach_premiums_from_bhavcopy (legs : List Leg) (options_df : List QuoteRow) :
    Except String (List EnrichedLeg × List Leg) :=
  let r := attachAux options_df legs
  if r.1.isEmpty then Except.error noValidLegsMsg else Except.ok r

/-- strategy.py `spot_pdf`: lognormal density in S-space. -/
def spot_pdf (M : MathLib) (S S0 sigma T : ℚ) : ℚ :=
  let mu := M.log S0 - 0.5 * sigma ^ 2 * T
  M.normPdfLoc (M.log S) mu (sigma * M.sqrt T) / S

/-- `np.trapezoid(y, x)` on a list of (x, y) points:
sum of (x2 - x1) * (y1 + y2) / 2 over consecutive pairs. -/
def trapezoid : List (ℚ × ℚ) → ℚ
  | [] => 0
  | [_] => 0
  | a :: b :: rest => (b.1 - a.1) * (a.2 + b.2) / 2 + trapezoid (b :: rest)

/-- The masked (spot, density) subsequence
`(spots[profit_mask], probs[profit_mask])` used for probability of
profit: grid points where the pnl is strictly positive, paired with
their densities. -/
def profitPoints (M : MathLib) (spots pnls : List ℚ) (S0 sigma T : ℚ) :
    List (ℚ × ℚ) :=
  (spots.zip pnls).filterMap
    (fun p => if 0 < p.2 then some (p.1, spot_pdf M p.1 S0 sigma T) else none)

/-- strategy.py `expected_metrics`: (expected PnL, probability of
profit).  Expected PnL is the trapezoidal integral of pnl * density over
the grid; probability of profit is the trapezoidal integral over the
compressed profitable subsequence. -/
def expected_metrics (M : MathLib) (spots pnls : List ℚ) (S0 sigma T : ℚ) : ℚ × ℚ :=
  let probs := spots.map (fun s => spot_pdf M s S0 sigma T)
  let expected_pnl := trapezoid (spots.zip (List.zipWith (fun a b => a * b) pnls probs))
  let prob_profit := trapezoid (profitPoints M spots pnls S0 sigma T)
  (expected_pnl, prob_profit)

/-- Call option-type string, as a named constant for use in theorem
statements. -/
def ceType : String := "CE"

/-- Put option-type string. -/
def peType : String := "PE"

/-- An instantiation of the math library with identity functions, used
only to witness theorems at concrete inputs. -/
def idMathLib : MathLib :=
  { exp := id, log := id, sqrt := id, normCdf := id, normPdf := id,
    normPdfLoc := fun x _ _ => x }

/-- A math-library instantiation whose CDF satisfies the symmetry
condition cdf x + cdf (-x) = 1, used to witness the parity theorem. -/
def affineCdfMathLib : MathLib :=
  { exp := id, log := id, sqrt := id, normCdf := fun x => x + 1/2, normPdf := id,
    normPdfLoc := fun x _ _ => x }

/-- A math-library instantiation with an everywhere-zero density (so the
IV loop takes its near-zero-vega exit immediately), used for witnessing. -/
def zeroPdfMathLib : MathLib :=
  { exp := id, log := id, sqrt := id, normCdf := id, normPdf := fun _ => 0,
    normPdfLoc := fun _ _ _ => 0 }

/-- A piecewise-linear stand-in for the density used by the
probability-of-profit counterexample: positive and non-increasing on the
grid, like the true lognormal tail there. -/
def rampPdfMathLib : MathLib :=
  { exp := id, log := id, sqrt := id, normCdf := id, normPdf := id,
    normPdfLoc := fun x _ _ => if x ≤ 2 then 4 else 3 }

/-- Example leg that has a matching quote in `exQuotes`. -/
def exLegCE : Leg := Leg.mk 25000 "CE" "BUY" 75

/-- Example leg with no matching quote in `exQuotes`. -/
def exLegPE : Leg := Leg.mk 25300 "PE" "SELL" 75

/-- Example quote table holding only the 25000 CE quote. -/
def exQuotes : List QuoteRow := [QuoteRow.mk 25000 "CE" 150 40000]

/-- Example two-leg strategy. -/
def exLegs : List Leg := [exLegCE, exLegPE]

/-! ## Calendar infrastructure -/

theorem civil_decomp (z : ℤ) : ∃ era doe q1 q2 q3 A yoe : ℤ,
    (146097 * era ≤ z + 719468 ∧ z + 719468 < 146097 * era + 146097) ∧
    doe = z + 719468 - era * 146097 ∧
    (1460 * q1 ≤ doe ∧ doe < 1460 * q1 + 1460) ∧
    (36524 * q2 ≤ doe ∧ doe < 36524 * q2 + 36524) ∧
    (146096 * q3 ≤ doe ∧ doe < 146096 * q3 + 146096) ∧
    A = doe - q1 + q2 - q3 ∧
    (365 * yoe ≤ A ∧ A < 365 * yoe + 365) ∧
    ((civilFromDays z).1 = yoe + era * 400 ∨ (civilFromDays z).1 = yoe + era * 400 + 1) := by
  refine ⟨(z + 719468) / 146097,
    z + 719468 - (z + 719468) / 146097 * 146097,
    (z + 719468 - (z + 719468) / 146097 * 146097) / 1460,
    (z + 719468 - (z + 719468) / 146097 * 146097) / 36524,
    (z + 719468 - (z + 719468) / 146097 * 146097) / 146096,
    z + 719468 - (z + 719468) / 146097 * 146097
      - (z + 719468 - (z + 719468) / 146097 * 146097) / 1460
      + (z + 719468 - (z + 719468) / 146097 * 146097) / 36524
      - (z + 719468 - (z + 719468) / 146097 * 146097) / 146096,
    (z + 719468 - (z + 719468) / 146097 * 146097
      - (z + 719468 - (z + 719468) / 146097 * 146097) / 1460
      + (z + 719468 - (z + 719468) / 146097 * 146097) / 36524
      - (z + 719468 - (z + 719468) / 146097 * 146097) / 146096) / 365,
    ⟨by omega, by omega⟩, rfl, ?_, ?_, ?_, rfl, ?_, ?_⟩
  · generalize z + 719468 - (z + 719468) / 146097 * 146097 = w
    exact ⟨by omega, by omega⟩
  · generalize z + 719468 - (z + 719468) / 146097 * 146097 = w
    exact ⟨by omega, by omega⟩
  · generalize z + 719468 - (z + 719468) / 146097 * 146097 = w
    exact ⟨by omega, by omega⟩
  · generalize z + 719468 - (z + 719468) / 146097 * 146097
      - (z + 719468 - (z + 719468) / 146097 * 146097) / 1460
      + (z + 719468 - (z + 719468) / 146097 * 146097) / 36524
      - (z + 719468 - (z + 719468) / 146097 * 146097) / 146096 = w
    exact ⟨by omega, by omega⟩
  · unfold civilFromDays
    dsimp only
    split_ifs <;> first | exact Or.inr rfl | exact Or.inl rfl

theorem civil_year_range (z : ℤ) (h1 : 2023 ≤ (civilFromDays z).1)
    (h2 : (civilFromDays z).1 ≤ 2027) : 19047 ≤ z ∧ z ≤ 21243 := by
  obtain ⟨era, doe, q1, q2, q3, A, yoe, he, hd, h3, h4, h5, hA, h7, hy⟩ := civil_decomp z
  rcases hy with hy | hy <;> rw [hy] at h1 h2 <;> omega

theorem Hdays_eq_table :
    Hdays = allNseHolidayDates.map (fun t => daysFromCivil t.1 t.2.1 t.2.2) := by
  decide

theorem table_year_mem (z : ℤ)
    (h : civilFromDays z ∈ get_nse_holidays (civilFromDays z).1) :
    2024 ≤ (civilFromDays z).1 ∧ (civilFromDays z).1 ≤ 2027 := by
  unfold get_nse_holidays at h
  split_ifs at h with h1 h2 h3 h4
  · omega
  · omega
  · omega
  · omega
  · simp at h

set_option maxRecDepth 8000 in
theorem holiday_chunk1 :
    ∀ z ∈ Finset.Icc (19047 : ℤ) 19646,
      (civilFromDays z ∈ get_nse_holidays (civilFromDays z).1) → z ∈ Hdays := by
  decide

set_option maxRecDepth 8000 in
theorem holiday_chunk2 :
    ∀ z ∈ Finset.Icc (19647 : ℤ) 20246,
      (civilFromDays z ∈ get_nse_holidays (civilFromDays z).1) → z ∈ Hdays := by
  decide

set_option maxRecDepth 8000 in
theorem holiday_chunk3 :
    ∀ z ∈ Finset.Icc (20247 : ℤ) 20846,
      (civilFromDays z ∈ get_nse_holidays (civilFromDays z).1) → z ∈ Hdays := by
  decide

set_option maxRecDepth 8000 in
theorem holiday_chunk4 :
    ∀ z ∈ Finset.Icc (20847 : ℤ) 21446,
      (civilFromDays z ∈ get_nse_holidays (civilFromDays z).1) → z ∈ Hdays := by
  decide

theorem tableHoliday_mem_Hdays (z : ℤ)
    (h : civilFromDays z ∈ get_nse_holidays (civilFromDays z).1) : z ∈ Hdays := by
  obtain ⟨hy1, hy2⟩ := table_year_mem z h
  obtain ⟨hz1, hz2⟩ := civil_year_range z (by omega) hy2
  rcases (by omega : z ≤ 19646 ∨ (19647 ≤ z ∧ z ≤ 20246) ∨ (20247 ≤ z ∧ z ≤ 20846) ∨ 20847 ≤ z)
    with h1 | h1 | h1 | h1
  · exact holiday_chunk1 z (Finset.mem_Icc.mpr (by omega)) h
  · exact holiday_chunk2 z (Finset.mem_Icc.mpr (by omega)) h
  · exact holiday_chunk3 z (Finset.mem_Icc.mpr (by omega)) h
  · exact holiday_chunk4 z (Finset.mem_Icc.mpr (by omega)) h

set_option maxRecDepth 2000 in
theorem Hdays_no_cluster : ∀ a ∈ Hdays, ∀ b ∈ Hdays, a < b → b - a ≤ 4 →
    ∀ c ∈ Hdays, b < c → 4 < c - a := by
  decide

theorem is_market_holiday_elim (z : ℤ) (h : is_market_holiday z = true) :
    5 ≤ weekday z ∨ z ∈ Hdays := by
  unfold is_market_holiday at h
  split_ifs at h with h1 h2
  · exact Or.inl h2
  · exact Or.inr (tableHoliday_mem_Hdays z (by simpa using h))

/-! ## Claim C8: previous trading day terminates -/

/-- Claim C8: for every input date, `get_previous_working_day` terminates
under the program's static holiday table and override set (five probes
always suffice, so the fuelled loop never returns `none`), and its result
is strictly earlier than the input and is not a non-trading day. -/
theorem C8_previous_working_day_terminates (z : ℤ) :
    ∃ r : ℤ, get_previous_working_day z = some r ∧ r < z ∧
      is_market_holiday r = false := by
  unfold get_previous_working_day
  rcases h1 : is_market_holiday (z - 1) with _ | _
  · exact ⟨z - 1, by simp [prevWorkingAux, h1], by omega, h1⟩
  rcases h2 : is_market_holiday (z - 2) with _ | _
  · refine ⟨z - 2, ?_, by omega, h2⟩
    simp [prevWorkingAux, h1, show z - 1 - 1 = z - 2 from by ring, h2]
  rcases h3 : is_market_holiday (z - 3) with _ | _
  · refine ⟨z - 3, ?_, by omega, h3⟩
    simp [prevWorkingAux, h1, show z - 1 - 1 = z - 2 from by ring, h2,
      show z - 2 - 1 = z - 3 from by ring, h3]
  rcases h4 : is_market_holiday (z - 4) with _ | _
  · refine ⟨z - 4, ?_, by omega, h4⟩
    simp [prevWorkingAux, h1, show z - 1 - 1 = z - 2 from by ring, h2,
      show z - 2 - 1 = z - 3 from by ring, h3,
      show z - 3 - 1 = z - 4 from by ring, h4]
  rcases h5 : is_market_holiday (z - 5) with _ | _
  · refine ⟨z - 5, ?_, by omega, h5⟩
    simp [prevWorkingAux, h1, show z - 1 - 1 = z - 2 from by ring, h2,
      show z - 2 - 1 = z - 3 from by ring, h3,
      show z - 3 - 1 = z - 4 from by ring, h4,
      show z - 4 - 1 = z - 5 from by ring, h5]
  exfalso
  have d1 := is_market_holiday_elim _ h1
  have d2 := is_market_holiday_elim _ h2
  have d3 := is_market_holiday_elim _ h3
  have d4 := is_market_holiday_elim _ h4
  have d5 := is_market_holiday_elim _ h5
  have hw : (z + 3) % 7 = 0 ∨ (z + 3) % 7 = 1 ∨ (z + 3) % 7 = 2 ∨ (z + 3) % 7 = 3 ∨
      (z + 3) % 7 = 4 ∨ (z + 3) % 7 = 5 ∨ (z + 3) % 7 = 6 := by omega
  rcases hw with hw | hw | hw | hw | hw | hw | hw
  · have m3 := d3.resolve_left (by unfold weekday; omega)
    have m4 := d4.resolve_left (by unfold weekday; omega)
    have m5 := d5.resolve_left (by unfold weekday; omega)
    exact absurd (Hdays_no_cluster _ m5 _ m4 (by omega) (by omega) _ m3 (by omega)) (by omega)
  · have m1 := d1.resolve_left (by unfold weekday; omega)
    have m4 := d4.resolve_left (by unfold weekday; omega)
    have m5 := d5.resolve_left (by unfold weekday; omega)
    exact absurd (Hdays_no_cluster _ m5 _ m4 (by omega) (by omega) _ m1 (by omega)) (by omega)
  · have m1 := d1.resolve_left (by unfold weekday; omega)
    have m2 := d2.resolve_left (by unfold weekday; omega)
    have m5 := d5.resolve_left (by unfold weekday; omega)
    exact absurd (Hdays_no_cluster _ m5 _ m2 (by omega) (by omega) _ m1 (by omega)) (by omega)
  · have m1 := d1.resolve_left (by unfold weekday; omega)
    have m2 := d2.resolve_left (by unfold weekday; omega)
    have m3 := d3.resolve_left (by unfold weekday; omega)
    exact absurd (Hdays_no_cluster _ m3 _ m2 (by omega) (by omega) _ m1 (by omega)) (by omega)
  · have m1 := d1.resolve_left (by unfold weekday; omega)
    have m2 := d2.resolve_left (by unfold weekday; omega)
    have m3 := d3.resolve_left (by unfold weekday; omega)
    exact absurd (Hdays_no_cluster _ m3 _ m2 (by omega) (by omega) _ m1 (by omega)) (by omega)
  · have m1 := d1.resolve_left (by unfold weekday; omega)
    have m2 := d2.resolve_left (by unfold weekday; omega)
    have m3 := d3.resolve_left (by unfold weekday; omega)
    exact absurd (Hdays_no_cluster _ m3 _ m2 (by omega) (by omega) _ m1 (by omega)) (by omega)
  · have m2 := d2.resolve_left (by unfold weekday; omega)
    have m3 := d3.resolve_left (by unfold weekday; omega)
    have m4 := d4.resolve_left (by unfold weekday; omega)
    exact absurd (Hdays_no_cluster _ m4 _ m3 (by omega) (by omega) _ m2 (by omega)) (by omega)

/-! ## Claim C2: the TTM day classification vs the calendar oracle -/

/-- Claim C2 counterexample: 2026-02-01 (a Sunday in the
override-exception set) is weighted as a non-trading day by
`compute_ttm`'s classifier even though `is_market_holiday` calls it a
trading day; walking `compute_ttm` across just that day yields
(0.25 + 0.75) / 365, not the (1.0 + 0.75) / 365 a trading-day weight
would give. -/
theorem C2_counterexample :
    ttmIsNonTrading (daysFromCivil 2026 2 1) = true ∧
    is_market_holiday (daysFromCivil 2026 2 1) = false ∧
    compute_ttm (daysFromCivil 2026 1 31) (daysFromCivil 2026 2 2) = 1 / 365 := by
  refine ⟨by decide, by decide, ?_⟩
  unfold compute_ttm
  rw [if_neg (by decide)]
  rw [show (daysFromCivil 2026 2 2 - (daysFromCivil 2026 1 31 + 1)).toNat = 1 from by decide]
  rw [show daysFromCivil 2026 1 31 + 1 = daysFromCivil 2026 2 1 from by decide]
  simp only [ttmDaysAux,
    show ttmIsNonTrading (daysFromCivil 2026 2 1) = true from by decide, if_true]
  norm_num [NON_TRADING_TIME, TRADING_TIME]

/-- Claim C2 (amended): the day classification inside `compute_ttm`
agrees with `is_market_holiday` on every date outside the
override-exception set; on exception dates that fall on a weekend or in
a holiday table (e.g. 2026-02-01) the two disagree, because
`compute_ttm` never consults `NSE_EXCEPTIONS`. -/
theorem C2_ttm_classifier_agrees_off_override (z : ℤ)
    (h : civilFromDays z ∉ NSE_EXCEPTIONS) :
    ttmIsNonTrading z = is_market_holiday z := by
  unfold ttmIsNonTrading is_market_holiday
  rw [if_neg h]
  by_cases hw : 5 ≤ weekday z
  · simp [hw]
  · simp [hw]

/-- Witness for the amended C2 theorem at 2026-01-26 (Republic Day, not
an exception date): both classifiers mark it non-trading. -/
theorem C2_ttm_classifier_agrees_off_override_witness :
    civilFromDays (daysFromCivil 2026 1 26) ∉ NSE_EXCEPTIONS ∧
    ttmIsNonTrading (daysFromCivil 2026 1 26) =
      is_market_holiday (daysFromCivil 2026 1 26) := by
  refine ⟨by decide, C2_ttm_classifier_agrees_off_override _ (by decide)⟩

/-! ## Claim C6: compute_ttm is monotone in the expiry date -/

theorem ttmDaysAux_nonneg : ∀ (n : ℕ) (z : ℤ), 0 ≤ ttmDaysAux n z := by
  intro n
  induction n with
  | zero => intro z; exact le_refl 0
  | succ n ih =>
      intro z
      have h1 : (0 : ℚ) ≤ if ttmIsNonTrading z then NON_TRADING_TIME else 1 := by
        split_ifs <;> norm_num [NON_TRADING_TIME]
      exact add_nonneg h1 (ih (z + 1))

theorem ttmDaysAux_le_succ : ∀ (n : ℕ) (z : ℤ), ttmDaysAux n z ≤ ttmDaysAux (n + 1) z := by
  intro n
  induction n with
  | zero =>
      intro z
      have h1 : (0 : ℚ) ≤ if ttmIsNonTrading z then NON_TRADING_TIME else 1 := by
        split_ifs <;> norm_num [NON_TRADING_TIME]
      simpa [ttmDaysAux] using h1
  | succ n ih =>
      intro z
      show (if ttmIsNonTrading z then NON_TRADING_TIME else 1) + ttmDaysAux n (z + 1) ≤
        (if ttmIsNonTrading z then NON_TRADING_TIME else 1) + ttmDaysAux (n + 1) (z + 1)
      exact add_le_add_left (ih (z + 1)) _

theorem ttmDaysAux_mono (z : ℤ) {m n : ℕ} (h : m ≤ n) :
    ttmDaysAux m z ≤ ttmDaysAux n z := by
  induction h with
  | refl => exact le_refl _
  | step _ ih => exact le_trans ih (ttmDaysAux_le_succ _ _)

/-- Claim C6: holding the valuation date fixed, `compute_ttm` is
monotonically non-decreasing as the expiry date moves later. -/
theorem C6_compute_ttm_monotone (v e1 e2 : ℤ) (h : e1 ≤ e2) :
    compute_ttm v e1 ≤ compute_ttm v e2 := by
  unfold compute_ttm
  split_ifs with h1 h2 h2
  · exact le_refl 0
  · apply div_nonneg _ (by norm_num)
    exact add_nonneg (ttmDaysAux_nonneg _ _) (by norm_num [TRADING_TIME])
  · omega
  · have hm : ttmDaysAux (e1 - (v + 1)).toNat (v + 1) ≤
        ttmDaysAux (e2 - (v + 1)).toNat (v + 1) :=
      ttmDaysAux_mono _ (by omega)
    gcongr

/-- Witness for C6 at a concrete pair of expiries. -/
theorem C6_compute_ttm_monotone_witness :
    (19755 : ℤ) ≤ 19762 ∧ compute_ttm 19748 19755 ≤ compute_ttm 19748 19762 :=
  ⟨by decide, C6_compute_ttm_monotone 19748 19755 19762 (by decide)⟩

/-! ## Claim C1: price returns intrinsic value at/past expiry -/

/-- Claim C1: for every spot S > 0, strike K > 0, rate, volatility > 0,
option type CE or PE, and year fraction T ≤ 1e-5, `BlackScholes.price`
returns exactly the intrinsic value: max(0, S - K) for a call,
max(0, K - S) for a put, whatever the math-library functions are (the
closed-form branch is bypassed). -/
theorem C1_price_intrinsic_at_expiry (M : MathLib) (S K T r sigma : ℚ)
    (option_type : String) (hS : 0 < S) (hK : 0 < K) (hsig : 0 < sigma)
    (hot : option_type = "CE" ∨ option_type = "PE") (hT : T ≤ 1e-5) :
    BlackScholes.price M S K T r sigma option_type =
      if option_type = "CE" then max 0 (S - K) else max 0 (K - S) := by
  unfold BlackScholes.price
  rw [if_pos hT]

/-- Witness for C1 at S = 100, K = 90, T = 0. -/
theorem C1_price_intrinsic_at_expiry_witness :
    0 < (100 : ℚ) ∧ (0 : ℚ) ≤ 1e-5 ∧
    BlackScholes.price idMathLib 100 90 0 (1/20) 1 ceType = max 0 (100 - 90) := by
  have h := C1_price_intrinsic_at_expiry idMathLib 100 90 0 (1/20) 1 ceType
    (by norm_num) (by norm_num) (by norm_num) (Or.inl rfl) (by norm_num)
  refine ⟨by norm_num, by norm_num, ?_⟩
  rw [h]
  simp [ceType]

/-! ## Claim C5: put-call parity for bs_price -/

/-- Claim C5: put-call parity.  For S, K, sigma > 0 and T > 0, assuming
only the defining symmetry of the normal CDF (cdf x + cdf (-x) = 1, true
of the real scipy function), the call price minus the put price from
`bs_price` equals S - K * exp(-r T) exactly, hence within the 1e-6
absolute tolerance the spec states. -/
theorem C5_put_call_parity (M : MathLib) (S K T r sigma : ℚ)
    (hsym : ∀ x : ℚ, M.normCdf x + M.normCdf (-x) = 1)
    (hS : 0 < S) (hK : 0 < K) (hsig : 0 < sigma) (hT : 0 < T) :
    |bs_price M S K T r sigma ceType - bs_price M S K T r sigma peType -
      (S - K * M.exp (-(r * T)))| ≤ 1e-6 := by
  have hz : bs_price M S K T r sigma ceType - bs_price M S K T r sigma peType -
      (S - K * M.exp (-(r * T))) = 0 := by
    unfold bs_price
    dsimp only
    rw [if_pos (show ceType = "CE" from rfl), if_neg (show ¬peType = "CE" from by decide)]
    set D1 := (M.log (S / K) + (r + 0.5 * sigma ^ 2) * T) / (sigma * M.sqrt T) with hD1
    linear_combination S * hsym D1 - K * M.exp (-(r * T)) * hsym (D1 - sigma * M.sqrt T)
  rw [hz]
  norm_num

/-- Witness for C5 with a CDF satisfying the symmetry hypothesis. -/
theorem C5_put_call_parity_witness :
    |bs_price affineCdfMathLib 100 100 1 0 (1/5) ceType -
      bs_price affineCdfMathLib 100 100 1 0 (1/5) peType -
      (100 - 100 * affineCdfMathLib.exp (-(0 * 1)))| ≤ 1e-6 :=
  C5_put_call_parity affineCdfMathLib 100 100 1 0 (1/5)
    (fun x => by show x + 1/2 + (-x + 1/2) = 1; ring)
    (by norm_num) (by norm_num) (by norm_num) (by norm_num)

/-! ## Claim C3: implied_vol is unsolvable exactly below the tick -/

/-- Claim C3: `implied_vol` returns `none` if and only if the market
price is strictly below 0.5; for any market price at or above 0.5 it
returns a numeric volatility, for every spot, strike, maturity, rate,
option type, tolerance and iteration budget. -/
theorem C3_implied_vol_unsolvable_iff (M : MathLib) (market_price S K T r : ℚ)
    (option_type : String) (tol : ℚ) (max_iter : ℕ) :
    implied_vol M market_price S K T r option_type tol max_iter = none ↔
      market_price < 0.5 := by
  unfold implied_vol
  split_ifs with h
  · simp [h]
  · simp [h]

/-! ## Claim C9: numeric implied vol results lie in [0.01, 3.0] -/

theorem ivLoop_bounds (M : MathLib) (market_price S K T r : ℚ)
    (option_type : String) (tol : ℚ) :
    ∀ (n : ℕ) (sigma : ℚ), 1/100 ≤ sigma → sigma ≤ 3 →
      1/100 ≤ ivLoop M market_price S K T r option_type tol n sigma ∧
      ivLoop M market_price S K T r option_type tol n sigma ≤ 3 := by
  intro n
  induction n with
  | zero => intro sigma h1 h2; exact ⟨h1, h2⟩
  | succ n ih =>
      intro sigma h1 h2
      simp only [ivLoop]
      split_ifs with hv hc
      · exact ⟨h1, h2⟩
      · exact ⟨h1, h2⟩
      · apply ih
        · calc (1/100 : ℚ) = 0.01 := by norm_num
            _ ≤ max 0.01 (min (sigma -
                (bs_price M S K T r sigma option_type - market_price) /
                  bs_vega M S K T r sigma) 3.0) := le_max_left _ _
        · apply max_le (by norm_num)
          calc min (sigma - (bs_price M S K T r sigma option_type - market_price) /
                bs_vega M S K T r sigma) 3.0 ≤ (3.0 : ℚ) := min_le_right _ _
            _ = 3 := by norm_num

/-- Claim C9: whenever `implied_vol` returns a numeric result, that
result lies in the closed interval [0.01, 3.0], on every exit path
(convergence, near-zero-vega early exit, and iteration exhaustion). -/
theorem C9_implied_vol_in_range (M : MathLib) (market_price S K T r : ℚ)
    (option_type : String) (tol : ℚ) (max_iter : ℕ) (v : ℚ)
    (h : implied_vol M market_price S K T r option_type tol max_iter = some v) :
    1/100 ≤ v ∧ v ≤ 3 := by
  unfold implied_vol at h
  split_ifs at h with hmp
  have hb := ivLoop_bounds M market_price S K T r option_type tol max_iter 0.2
    (by norm_num) (by norm_num)
  have hv := Option.some.inj h
  rw [← hv]
  exact hb

/-- Witness for C9: with an everywhere-zero density the loop takes the
near-zero-vega exit at once and returns the initial guess 0.2. -/
theorem C9_implied_vol_in_range_witness :
    implied_vol zeroPdfMathLib 1 1 1 1 0 ceType 1 1 = some (1/5) ∧
    (1/100 ≤ (1/5 : ℚ) ∧ (1/5 : ℚ) ≤ 3) := by
  have hv : implied_vol zeroPdfMathLib 1 1 1 1 0 ceType 1 1 = some (1/5) := by
    norm_num [implied_vol, ivLoop, bs_vega, bs_price, zeroPdfMathLib]
  exact ⟨hv, C9_implied_vol_in_range zeroPdfMathLib 1 1 1 1 0 ceType 1 1 (1/5) hv⟩

/-! ## Claims C7 and C10: bhavcopy premium attachment -/

theorem attachAux_eq (options_df : List QuoteRow) (legs : List Leg) :
    attachAux options_df legs =
      (legs.filterMap (fun l => (legMatches options_df l).head?.map
          (fun row => mkEnriched l row.ClsPric)),
       legs.filter (fun l => (legMatches options_df l).isEmpty)) := by
  induction legs with
  | nil => rfl
  | cons l rest ih =>
      simp only [attachAux, ih]
      cases h : legMatches options_df l with
      | nil => simp [h, List.filterMap_cons, List.filter_cons]
      | cons row tail => simp [h, List.filterMap_cons, List.filter_cons]

theorem toLeg_mkEnriched (l : Leg) (p : ℚ) : toLeg (mkEnriched l p) = l := rfl

/-- Claim C7: `attach_premiums_from_bhavcopy` raises its hard failure
exactly when no leg has a matching quote; under the normal return, every
leg without a matching (strike, type) quote is in the skipped list and
never in the enriched list, and every leg with a matching quote appears
in the enriched list. -/
theorem C7_attach_premiums_partition (legs : List Leg) (options_df : List QuoteRow) :
    (attach_premiums_from_bhavcopy legs options_df = Except.error noValidLegsMsg ↔
      ∀ l ∈ legs, legMatches options_df l = []) ∧
    (∀ enriched skipped,
      attach_premiums_from_bhavcopy legs options_df = Except.ok (enriched, skipped) →
        (∀ l ∈ legs, legMatches options_df l = [] →
          l ∈ skipped ∧ ∀ e ∈ enriched, toLeg e ≠ l) ∧
        (∀ l ∈ legs, legMatches options_df l ≠ [] → ∃ e ∈ enriched, toLeg e = l)) := by
  have key : legs.filterMap (fun l => (legMatches options_df l).head?.map
      (fun row => mkEnriched l row.ClsPric)) = [] ↔
      ∀ l ∈ legs, legMatches options_df l = [] := by
    rw [List.filterMap_eq_nil_iff]
    constructor
    · intro h l hl
      have h2 := h l hl
      rw [Option.map_eq_none'] at h2
      simpa using h2
    · intro h l hl
      rw [h l hl]
      rfl
  constructor
  · unfold attach_premiums_from_bhavcopy
    rw [attachAux_eq]
    dsimp only
    split_ifs with he
    · rw [List.isEmpty_iff] at he
      exact ⟨fun _ => key.mp he, fun _ => rfl⟩
    · rw [List.isEmpty_iff] at he
      constructor
      · intro hcontra
        exact absurd hcontra (by simp)
      · intro hall
        exact absurd (key.mpr hall) he
  · intro enriched skipped hok
    unfold attach_premiums_from_bhavcopy at hok
    rw [attachAux_eq] at hok
    dsimp only at hok
    split_ifs at hok with he
    have hp := Except.ok.inj hok
    rw [Prod.ext_iff] at hp
    obtain ⟨h1, h2⟩ := hp
    dsimp only at h1 h2
    subst h1
    subst h2
    constructor
    · intro l hl hnone
      constructor
      · rw [List.mem_filter]
        exact ⟨hl, by rw [hnone]; rfl⟩
      · intro e he' heq
        rw [List.mem_filterMap] at he'
        obtain ⟨l', hl', hf⟩ := he'
        rw [Option.map_eq_some'] at hf
        obtain ⟨row, hrow, hE⟩ := hf
        have hle : l' = l := by rw [← heq, ← hE]; rfl
        rw [hle, hnone] at hrow
        exact absurd hrow (by simp)
    · intro l hl hne
      cases hh : (legMatches options_df l).head? with
      | none =>
          rw [List.head?_eq_none_iff] at hh
          exact absurd hh hne
      | some row =>
          refine ⟨mkEnriched l row.ClsPric, ?_, rfl⟩
          rw [List.mem_filterMap]
          exact ⟨l, hl, by rw [hh]; rfl⟩

theorem exAttach_eval :
    attach_premiums_from_bhavcopy exLegs exQuotes =
      Except.ok ([mkEnriched exLegCE 150], [exLegPE]) := by
  have h1 : legMatches exQuotes exLegCE = exQuotes := by
    simp [legMatches, exQuotes, exLegCE, List.filter]
  have h2 : legMatches exQuotes exLegPE = [] := by
    simp [legMatches, exQuotes, exLegPE, List.filter]
  unfold attach_premiums_from_bhavcopy
  rw [attachAux_eq]
  dsimp only
  simp only [exLegs, List.filterMap_cons, List.filterMap_nil, List.filter_cons,
    List.filter_nil, h1, h2]
  simp [exQuotes]

/-- Witness for C7 on a two-leg strategy where the PE leg has no quote:
it lands in the skipped list and not in the enriched list, while the CE
leg is enriched. -/
theorem C7_attach_premiums_partition_witness :
    (exLegPE ∈ [exLegPE] ∧ ∀ e ∈ [mkEnriched exLegCE 150], toLeg e ≠ exLegPE) ∧
    (∃ e ∈ [mkEnriched exLegCE 150], toLeg e = exLegCE) := by
  have h := (C7_attach_premiums_partition exLegs exQuotes).2
    [mkEnriched exLegCE 150] [exLegPE] exAttach_eval
  refine ⟨h.1 exLegPE (by simp [exLegs]) ?_, h.2 exLegCE (by simp [exLegs]) ?_⟩
  · simp [legMatches, exQuotes, exLegPE, List.filter]
  · simp [legMatches, exQuotes, exLegCE, List.filter]

theorem attachAux_map_toLeg (options_df : List QuoteRow) (legs : List Leg) :
    (legs.filterMap (fun l => (legMatches options_df l).head?.map
        (fun row => mkEnriched l row.ClsPric))).map toLeg =
      legs.filter (fun l => !(legMatches options_df l).isEmpty) := by
  induction legs with
  | nil => rfl
  | cons l rest ih =>
      cases hh : (legMatches options_df l).head? with
      | none =>
          have : legMatches options_df l = [] := by simpa using hh
          simp [List.filterMap_cons, List.filter_cons, hh, this, ih]
      | some row =>
          have : (legMatches options_df l).isEmpty = false := by
            cases hm : legMatches options_df l
            · rw [hm] at hh; exact absurd hh (by simp)
            · rfl
          simp [List.filterMap_cons, List.filter_cons, hh, this, ih, toLeg_mkEnriched]

/-- Claim C10: `attach_premiums_from_bhavcopy` never mutates a leg's
original fields: every enriched leg carries the strike, type, side and
qty of a corresponding input leg, its premium is the ClsPric of the
first matching quote row, and the enriched and skipped lists together
are a permutation of the input legs (each input leg lands in exactly one
of them). -/
theorem C10_attach_preserves_legs (legs : List Leg) (options_df : List QuoteRow)
    (enriched : List EnrichedLeg) (skipped : List Leg)
    (h : attach_premiums_from_bhavcopy legs options_df = Except.ok (enriched, skipped)) :
    (∀ e ∈ enriched, ∃ l ∈ legs, e.strike = l.strike ∧ e.type = l.type ∧
      e.side = l.side ∧ e.qty = l.qty ∧
      ∃ row, (legMatches options_df l).head? = some row ∧ e.premium = row.ClsPric) ∧
    (enriched.map toLeg ++ skipped).Perm legs := by
  unfold attach_premiums_from_bhavcopy at h
  rw [attachAux_eq] at h
  dsimp only at h
  split_ifs at h
  have hp := Except.ok.inj h
  rw [Prod.ext_iff] at hp
  obtain ⟨h1, h2⟩ := hp
  dsimp only at h1 h2
  subst h1
  subst h2
  constructor
  · intro e he
    rw [List.mem_filterMap] at he
    obtain ⟨l, hl, hf⟩ := he
    rw [Option.map_eq_some'] at hf
    obtain ⟨row, hrow, hE⟩ := hf
    subst hE
    exact ⟨l, hl, rfl, rfl, rfl, rfl, row, hrow, rfl⟩
  · rw [attachAux_map_toLeg]
    have hperm := List.filter_append_perm
      (fun l => !(legMatches options_df l).isEmpty) legs
    refine List.Perm.trans (List.Perm.append_left _ ?_) hperm
    apply List.Perm.of_eq
    apply List.filter_congr
    intro x _
    simp

/-! ## Claim C4: probability of profit under pointwise dominance -/

theorem trapezoid_nonneg (L : List (ℚ × ℚ)) :
    List.Chain' (fun u v : ℚ × ℚ => u.1 ≤ v.1) L → (∀ u ∈ L, 0 ≤ u.2) →
    0 ≤ trapezoid L := by
  induction L with
  | nil => intro _ _; exact le_refl 0
  | cons a L ih =>
      intro hc hn
      cases L with
      | nil => exact le_refl 0
      | cons b L' =>
          rw [List.chain'_cons] at hc
          obtain ⟨hab, hc'⟩ := hc
          have h1 : 0 ≤ (b.1 - a.1) * (a.2 + b.2) / 2 := by
            apply div_nonneg _ (by norm_num)
            apply mul_nonneg (by linarith)
            have ha := hn a (by simp)
            have hb := hn b (by simp)
            linarith
          have h2 := ih hc' (fun u hu => hn u (List.mem_cons_of_mem a hu))
          show 0 ≤ (b.1 - a.1) * (a.2 + b.2) / 2 + trapezoid (b :: L')
          linarith

theorem trapezoid_le_append_left (A L : List (ℚ × ℚ)) :
    List.Chain' (fun u v : ℚ × ℚ => u.1 ≤ v.1) (A ++ L) → (∀ u ∈ A ++ L, 0 ≤ u.2) →
    trapezoid L ≤ trapezoid (A ++ L) := by
  induction A with
  | nil => intro _ _; simp
  | cons a A' ih =>
      intro hc hn
      rw [List.cons_append] at hc hn ⊢
      cases hAL : A' ++ L with
      | nil =>
          have hL : L = [] := (List.append_eq_nil.mp hAL).2
          rw [hL]
          exact le_refl 0
      | cons b rest =>
          rw [hAL] at hc hn
          rw [List.chain'_cons] at hc
          obtain ⟨hab, hc'⟩ := hc
          have hterm : 0 ≤ (b.1 - a.1) * (a.2 + b.2) / 2 := by
            apply div_nonneg _ (by norm_num)
            apply mul_nonneg (by linarith)
            have ha := hn a (by simp)
            have hb := hn b (by simp)
            linarith
          have hih := ih (by rw [hAL]; exact hc')
            (fun u hu => hn u (List.mem_cons_of_mem a (hAL ▸ hu)))
          rw [hAL] at hih
          show trapezoid L ≤ (b.1 - a.1) * (a.2 + b.2) / 2 + trapezoid (b :: rest)
          linarith

theorem trapezoid_le_append_right (L B : List (ℚ × ℚ)) :
    List.Chain' (fun u v : ℚ × ℚ => u.1 ≤ v.1) (L ++ B) → (∀ u ∈ L ++ B, 0 ≤ u.2) →
    trapezoid L ≤ trapezoid (L ++ B) := by
  induction L with
  | nil => intro hc hn; simpa using trapezoid_nonneg B (by simpa using hc) (by simpa using hn)
  | cons a L' ih =>
      intro hc hn
      rw [List.cons_append] at hc hn ⊢
      cases L' with
      | nil =>
          show trapezoid [a] ≤ trapezoid (a :: B)
          have h0 : trapezoid [a] = 0 := rfl
          rw [h0]
          exact trapezoid_nonneg (a :: B) hc (by simpa using hn)
      | cons b L'' =>
          rw [List.cons_append] at hc hn
          rw [List.chain'_cons] at hc
          obtain ⟨hab, hc'⟩ := hc
          have hih := ih (by rw [List.cons_append]; exact hc')
            (fun u hu => hn u (List.mem_cons_of_mem a hu))
          show (b.1 - a.1) * (a.2 + b.2) / 2 + trapezoid (b :: L'') ≤
            (b.1 - a.1) * (a.2 + b.2) / 2 + trapezoid (b :: L'' ++ B)
          have : trapezoid (b :: L'') ≤ trapezoid (b :: L'' ++ B) := hih
          linarith

/-- Claim C4 (amended): under pointwise dominance of the PnL vectors,
probabilityOfProfit from `expected_metrics` is non-decreasing provided
the profitable masked subsequence only grows at its two ends (the masked
pairs of q are A ++ (masked pairs of p) ++ B), the masked spots are
sorted and the densities at masked points are non-negative.  Without the
ends-only proviso the claim fails (see the counterexample): the
trapezoidal rule is applied to the compressed masked subsequence, and a
newly profitable interior point with low density can lower the
integral. -/
theorem C4_prob_profit_monotone_at_ends (M : MathLib) (spots pnls_p pnls_q : List ℚ)
    (S0 sigma T : ℚ) (A B : List (ℚ × ℚ))
    (hdom : List.Forall₂ (fun a b => a < b) pnls_p pnls_q)
    (hsplit : profitPoints M spots pnls_q S0 sigma T =
      A ++ profitPoints M spots pnls_p S0 sigma T ++ B)
    (hsort : List.Chain' (fun u v : ℚ × ℚ => u.1 ≤ v.1)
      (profitPoints M spots pnls_q S0 sigma T))
    (hnn : ∀ u ∈ profitPoints M spots pnls_q S0 sigma T, 0 ≤ u.2) :
    (expected_metrics M spots pnls_p S0 sigma T).2 ≤
      (expected_metrics M spots pnls_q S0 sigma T).2 := by
  have e1 : (expected_metrics M spots pnls_p S0 sigma T).2 =
      trapezoid (profitPoints M spots pnls_p S0 sigma T) := rfl
  have e2 : (expected_metrics M spots pnls_q S0 sigma T).2 =
      trapezoid (profitPoints M spots pnls_q S0 sigma T) := rfl
  rw [e1, e2, hsplit]
  rw [hsplit] at hsort hnn
  rw [List.append_assoc] at hsort hnn ⊢
  have hcsuffix : List.Chain' (fun u v : ℚ × ℚ => u.1 ≤ v.1)
      (profitPoints M spots pnls_p S0 sigma T ++ B) :=
    ((List.chain'_append.mp hsort).2).1
  have hnsuffix : ∀ u ∈ profitPoints M spots pnls_p S0 sigma T ++ B, 0 ≤ u.2 :=
    fun u hu => hnn u (by simp [hu])
  calc trapezoid (profitPoints M spots pnls_p S0 sigma T) ≤
      trapezoid (profitPoints M spots pnls_p S0 sigma T ++ B) :=
        trapezoid_le_append_right _ _ hcsuffix hnsuffix
    _ ≤ trapezoid (A ++ (profitPoints M spots pnls_p S0 sigma T ++ B)) :=
        trapezoid_le_append_left _ _ hsort hnn

/-- Claim C4 counterexample, refuting the claim as stated: on the grid
[1,2,3,4] with a non-increasing positive density, pnl vector q
dominates p strictly at every grid point, yet the probability of profit
computed by `expected_metrics` from q (47/8) is strictly below the one
computed from p (57/8): the newly profitable interior point (spot 3,
low density) splits the wide p-trapezoid into smaller ones. -/
theorem C4_counterexample :
    List.Forall₂ (fun a b : ℚ => a < b) [1, -1, -1, 1] [2, -1/2, 1, 2] ∧
    (expected_metrics rampPdfMathLib [1, 2, 3, 4] [2, -1/2, 1, 2] 1 1 1).2 <
      (expected_metrics rampPdfMathLib [1, 2, 3, 4] [1, -1, -1, 1] 1 1 1).2 := by
  constructor
  · norm_num [List.forall₂_cons]
  · have hq : profitPoints rampPdfMathLib [1, 2, 3, 4] [2, -1/2, 1, 2] 1 1 1 =
        [(1, 4), (3, 1), (4, 3/4)] := by
      norm_num [profitPoints, spot_pdf, rampPdfMathLib, List.filterMap_cons, List.filterMap_nil]
    have hp : profitPoints rampPdfMathLib [1, 2, 3, 4] [1, -1, -1, 1] 1 1 1 =
        [(1, 4), (4, 3/4)] := by
      norm_num [profitPoints, spot_pdf, rampPdfMathLib, List.filterMap_cons, List.filterMap_nil]
    have e1 : (expected_metrics rampPdfMathLib [1, 2, 3, 4] [2, -1/2, 1, 2] 1 1 1).2 =
        trapezoid (profitPoints rampPdfMathLib [1, 2, 3, 4] [2, -1/2, 1, 2] 1 1 1) := rfl
    have e2 : (expected_metrics rampPdfMathLib [1, 2, 3, 4] [1, -1, -1, 1] 1 1 1).2 =
        trapezoid (profitPoints rampPdfMathLib [1, 2, 3, 4] [1, -1, -1, 1] 1 1 1) := rfl
    rw [e1, e2, hq, hp]
    norm_num [trapezoid]

/-- Witness for the amended C4 theorem: making the strategy more
profitable so that the profit region grows only at the left end of the
grid does not decrease the probability of profit. -/
theorem C4_prob_profit_monotone_at_ends_witness :
    (expected_metrics rampPdfMathLib [1, 2, 3, 4] [-1, -1, -1, 1] 1 1 1).2 ≤
      (expected_metrics rampPdfMathLib [1, 2, 3, 4] [2, -1/2, -1/2, 2] 1 1 1).2 := by
  have hp : profitPoints rampPdfMathLib [1, 2, 3, 4] [-1, -1, -1, 1] 1 1 1 =
      [(4, 3/4)] := by
    norm_num [profitPoints, spot_pdf, rampPdfMathLib, List.filterMap_cons, List.filterMap_nil]
  have hq : profitPoints rampPdfMathLib [1, 2, 3, 4] [2, -1/2, -1/2, 2] 1 1 1 =
      [(1, 4), (4, 3/4)] := by
    norm_num [profitPoints, spot_pdf, rampPdfMathLib, List.filterMap_cons, List.filterMap_nil]
  refine C4_prob_profit_monotone_at_ends rampPdfMathLib [1, 2, 3, 4] [-1, -1, -1, 1]
    [2, -1/2, -1/2, 2] 1 1 1 [(1, 4)] [] ?_ ?_ ?_ ?_
  · norm_num [List.forall₂_cons]
  · rw [hp, hq]
    rfl
  · rw [hq]
    norm_num [List.chain'_cons]
  · rw [hq]
    intro u hu
    fin_cases hu <;> norm_num

/-- Witness for C10 on the example two-leg strategy. -/
theorem C10_attach_preserves_legs_witness :
    (∀ e ∈ [mkEnriched exLegCE 150], ∃ l ∈ exLegs, e.strike = l.strike ∧
      e.type = l.type ∧ e.side = l.side ∧ e.qty = l.qty ∧
      ∃ row, (legMatches exQuotes l).head? = some row ∧ e.premium = row.ClsPric) ∧
    ([mkEnriched exLegCE 150].map toLeg ++ [exLegPE]).Perm exLegs :=
  C10_attach_preserves_legs exLegs exQuotes [mkEnriched exLegCE 150] [exLegPE]
    exAttach_eval
